import Mathlib

/-
Shallow embedding of `webextensions-jsdom` (src/index.js).

The repository is a test harness: `fromManifest` reads a WebExtension
manifest, builds a jsdom DOM for the background page (or background
scripts) and for the browser-action popup, attaches a fresh fake
`browser` stub to each window before parsing, optionally applies the
api-fake behaviour layer, and wires `runtime.sendMessage` in the popup
to the `runtime.onMessage` listener set of the background stub.

Modelling decisions (each mirrors the JavaScript in src/index.js):
  * File paths are an absolute flag plus a list of segments; dot-segment
    normalisation is not modelled (no claim involves "." or "..").
  * JavaScript option values passed for `options.background` /
    `options.popup` are modelled by `OptVal` (undefined, null, booleans,
    or an options object); JS truthiness and the `typeof v === 'object'`
    test are modelled faithfully (note `typeof null === 'object'`).
  * jsdom is modelled by a `Dom` record that logs, in order, the events
    of a build: the effects of the `beforeParse` callback, then `parse`,
    then a single `eval` of the concatenated instrumented script text.
  * `nyc.instrument` (file src/nyc.js, not part of the sources given)
    is kept abstract as a function `Env.instrument : String → String`
    from a script path to instrumented source text; no claim depends on
    its behaviour, only on when and in which order it is applied.
  * `fs.readFileSync` + `JSON.parse` of the manifest are modelled by
    `Env.fsManifest : FPath → Manifest`, the parsed manifest found at a
    path.
  * Fresh allocation (`new jsdom.JSDOM`, `createBrowser()`) is modelled
    by counters in `SimState`; `this.webExtension` of the
    `WebExtensionsJSDOM` instance is the `instBackground` / `instPopup`
    part of that state.
  * User callbacks `beforeParse` / `afterBuild` in the options are kept
    as opaque presence flags: the harness only checks for them and calls
    them; their own effects are outside the model.
-/

namespace WebextJsdom

/-- A file path: absolute flag plus path segments.  Dot segments are not
normalised (no modelled behaviour depends on them). -/
structure FPath where
  abs : Bool
  segs : List String
  deriving DecidableEq, Repr

/-- Split a character list into path segments at separator characters. -/
def splitSegsAux : List Char → List Char → List String
  | [], acc => [String.mk acc.reverse]
  | c :: cs, acc =>
    if c = '/' then String.mk acc.reverse :: splitSegsAux cs []
    else splitSegsAux cs (c :: acc)

/-- Whether a path string is absolute (starts with a separator). -/
def isAbsStr (s : String) : Bool :=
  match s.data with
  | '/' :: _ => true
  | _ => false

/-- Parse a path string into an `FPath` (empty segments dropped). -/
def parsePath (s : String) : FPath :=
  { abs := isAbsStr s, segs := (splitSegsAux s.data []).filter (fun t => t ≠ "") }

namespace FPath

/-- Node's `path.join a b`: textual concatenation of the segment lists; a
leading separator of `b` does not restart the path. -/
def join (a b : FPath) : FPath :=
  { abs := a.abs, segs := a.segs ++ b.segs }

/-- Node's one-argument `path.resolve p` with current directory `cwd`. -/
def resolveOne (cwd p : FPath) : FPath :=
  if p.abs then p else { abs := cwd.abs, segs := cwd.segs ++ p.segs }

/-- Node's two-argument `path.resolve a b` with current directory `cwd`:
an absolute `b` wins, otherwise `b` is appended to `a` (itself resolved
against `cwd` when relative). -/
def resolveIn (cwd a b : FPath) : FPath :=
  if b.abs then b
  else if a.abs then { abs := true, segs := a.segs ++ b.segs }
  else { abs := cwd.abs, segs := cwd.segs ++ a.segs ++ b.segs }

/-- Render a segment list with separators. -/
def renderSegs : List String → String
  | [] => ""
  | [s] => s
  | s :: rest => s ++ "/" ++ renderSegs rest

/-- Render a path back to a string. -/
def render (p : FPath) : String :=
  (if p.abs then "/" else "") ++ renderSegs p.segs

end FPath

/-- The `background` entry of a manifest: an optional page path and an
optional list of script paths. -/
structure BackgroundDecl where
  page : Option String
  scripts : Option (List String)
  deriving DecidableEq, Repr

/-- The `browser_action` entry of a manifest. -/
structure BrowserAction where
  default_popup : Option String
  deriving DecidableEq, Repr

/-- The `sidebar_action` entry of a manifest. -/
structure SidebarAction where
  default_panel : Option String
  deriving DecidableEq, Repr

/-- The parsed `manifest.json`, with the entries the harness can look at. -/
structure Manifest where
  background : Option BackgroundDecl
  browser_action : Option BrowserAction
  sidebar_action : Option SidebarAction
  deriving DecidableEq, Repr

/-- JS truthiness of an optional string field: present and non-empty. -/
def strTruthy : Option String → Bool
  | some s => !(s == "")
  | none => false

/-- Build options for one context (the contents of `options.background` /
`options.popup` when those are objects).  The user callbacks are opaque
presence flags. -/
structure BuildOpts where
  apiFake : Option Bool := none
  hasBeforeParse : Bool := false
  hasAfterBuild : Bool := false
  deriving DecidableEq, Repr

/-- A JavaScript value sitting in `options.background` / `options.popup`:
undefined, null, a boolean, or an options object. -/
inductive OptVal where
  | undef
  | null
  | bool (b : Bool)
  | obj (o : BuildOpts)
  deriving DecidableEq, Repr

namespace OptVal

/-- JS truthiness of an `OptVal`. -/
def truthy : OptVal → Bool
  | .undef => false
  | .null => false
  | .bool b => b
  | .obj _ => true

/-- Whether the value is JS `undefined`. -/
def isUndef : OptVal → Bool
  | .undef => true
  | _ => false

/-- Whether `typeof v === 'object'` holds (note: true for `null`). -/
def typeofObject : OptVal → Bool
  | .null => true
  | .obj _ => true
  | _ => false

/-- Assign `v.apiFake = a` when `v` is an object (JS property write on the
options object); other values are left as they are. -/
def withApiFake (v : OptVal) (a : Bool) : OptVal :=
  match v with
  | .obj o => .obj { o with apiFake := some a }
  | v => v

/-- View the value as a build-options object (empty object otherwise). -/
def asObj : OptVal → BuildOpts
  | .obj o => o
  | _ => {}

end OptVal

/-- The options argument of `fromManifest`.  `extra` stands for any other
fields of the options object, which the harness never touches. -/
structure Options where
  background : OptVal := .undef
  popup : OptVal := .undef
  apiFake : Option Bool := none
  extra : List (String × String) := []
  deriving DecidableEq, Repr

/-- An effect performed by a `beforeParse` callback, in order: attaching
the fresh browser stub to the window, applying the api-fake layer,
installing the sendMessage-to-background wiring, or running the
user-supplied hook. -/
inductive PreEvent where
  | setBrowser (id : Nat)
  | applyFake (id : Nat)
  | installWiring (bgBrowser : Nat)
  | userHook
  deriving DecidableEq, Repr

/-- An event in the life of a built DOM: a `beforeParse` effect, the
parsing of the document, or an evaluation of script text in the window. -/
inductive DomEvent where
  | pre (e : PreEvent)
  | parse
  | eval (src : String)
  deriving DecidableEq, Repr

/-- Whether a DOM event is a script evaluation. -/
def DomEvent.isEval : DomEvent → Bool
  | .eval _ => true
  | _ => false

/-- The observable state of a simulated window. -/
structure Window where
  browser : Option Nat
  fakeApplied : Bool
  wiring : Option Nat
  userHookRan : Bool
  deriving DecidableEq, Repr

/-- A freshly created window, before `beforeParse` runs. -/
def windowInit : Window :=
  { browser := none, fakeApplied := false, wiring := none, userHookRan := false }

/-- A built jsdom instance: its identity, final window state, the file it
was loaded from (file mode), the script sources it gathered, and the
ordered event log of its construction. -/
structure Dom where
  id : Nat
  window : Window
  loadedFile : Option FPath
  scriptSources : List String
  events : List DomEvent
  deriving DecidableEq, Repr

/-- A built context as stored on `this.webExtension` and returned: the
fresh browser stub (by id), the dom, and the dom's document (by the
dom's id). -/
structure Context where
  browser : Nat
  dom : Dom
  document : Nat
  deriving DecidableEq, Repr

/-- The mutable state of a `WebExtensionsJSDOM` instance: allocation
counters for fresh browser stubs and fresh DOMs, and the
`this.webExtension` record. -/
structure SimState where
  nextBrowserId : Nat
  nextDomId : Nat
  instBackground : Option Context
  instPopup : Option Context
  deriving DecidableEq, Repr

/-- The initial instance state (`new WebExtensionsJSDOM`). -/
def initState : SimState :=
  { nextBrowserId := 0, nextDomId := 0, instBackground := none, instPopup := none }

/-- The ambient environment: current directory, the parsed manifest found
at a path, the script-tag `src` attributes found in the HTML file at a
path, and the (abstract) nyc instrumentation of the script at a path. -/
structure Env where
  cwd : FPath
  fsManifest : FPath → Manifest
  scriptTagsOf : FPath → List String
  instrument : String → String

/-- Strip a leading `file://` scheme from a script src, as the regex
replace in `buildDom` does. -/
def stripFileScheme (s : String) : String :=
  match s.data with
  | 'f' :: 'i' :: 'l' :: 'e' :: ':' :: '/' :: '/' :: rest => String.mk rest
  | _ => s

/-- Options handed to `buildDom`: the file to load (file mode) and the
`beforeParse` callback, which transforms the fresh window and reports
its effects in order. -/
structure BuildDomOptions where
  path : Option FPath
  beforeParse : Window → Window × List PreEvent

/-- The scripts `buildDom` gathers: the script tags of the loaded HTML
file when no html string is given, otherwise the passed script list. -/
def gatherScripts (env : Env) (opts : BuildDomOptions) (html : Option String)
    (scripts : List String) : List String :=
  match html with
  | none =>
    match opts.path with
    | some p => env.scriptTagsOf p
    | none => []
  | some _ => scripts

/-- The `buildDom` method: load or construct the document, gather the
scripts, instrument each source in order appending a `;\n;` separator,
and evaluate the concatenation once in the window after parsing. -/
def buildDom (env : Env) (st : SimState) (opts : BuildDomOptions) (html : Option String)
    (scripts : List String) : Dom × SimState :=
  let srcs := gatherScripts env opts html scripts
  let scriptSrcs :=
    srcs.foldl (fun acc s => acc ++ env.instrument (stripFileScheme s) ++ ";\n;") ""
  let wp := opts.beforeParse windowInit
  let dom : Dom :=
    { id := st.nextDomId
      window := wp.1
      loadedFile := match html with | none => opts.path | some _ => none
      scriptSources := srcs
      events := wp.2.map DomEvent.pre ++ [DomEvent.parse, DomEvent.eval scriptSrcs] }
  (dom, { st with nextDomId := st.nextDomId + 1 })

/-- The `beforeParse` closure `buildBackground` passes to `buildDom`:
attach the fresh browser stub, apply the api-fake layer when the
`apiFake` option is truthy, then run the user hook when present. -/
def bgBeforeParse (browser : Nat) (options : BuildOpts) : Window → Window × List PreEvent :=
  fun w =>
    let w := { w with browser := some browser }
    let evs := [PreEvent.setBrowser browser]
    let we :=
      if options.apiFake = some true then
        ({ w with fakeApplied := true }, evs ++ [PreEvent.applyFake browser])
      else (w, evs)
    if options.hasBeforeParse then
      ({ we.1 with userHookRan := true }, we.2 ++ [PreEvent.userHook])
    else we

/-- The blank page used when the background is given as a script list. -/
def emptyHtml : String := "<!DOCTYPE html><html><head></head><body></body></html>"

/-- The `buildBackground` method: create a fresh browser stub; when the
background declares a truthy page, load it from the page path resolved
against the manifest path; otherwise, when it declares scripts, build a
blank page with each script path joined to the manifest path and then
resolved; with neither, the local `dom` stays undefined and accessing
`dom.window` raises a TypeError.  The built context is stored on
`this.webExtension.background` and returned. -/
def buildBackground (env : Env) (st : SimState) (background : BackgroundDecl)
    (manifestPath : FPath) (options : BuildOpts) : Except String (Context × SimState) :=
  let browser := st.nextBrowserId
  let st1 := { st with nextBrowserId := st.nextBrowserId + 1 }
  let bp := bgBeforeParse browser options
  if strTruthy background.page then
    let backgroundPath := FPath.resolveIn env.cwd manifestPath (parsePath (background.page.getD ""))
    let ds := buildDom env st1 { path := some backgroundPath, beforeParse := bp } none []
    let ctx : Context := { browser := browser, dom := ds.1, document := ds.1.id }
    .ok (ctx, { ds.2 with instBackground := some ctx })
  else if background.scripts.isSome then
    let scripts := (background.scripts.getD []).map
      (fun script => (FPath.resolveOne env.cwd (FPath.join manifestPath (parsePath script))).render)
    let ds := buildDom env st1 { path := none, beforeParse := bp } (some emptyHtml) scripts
    let ctx : Context := { browser := browser, dom := ds.1, document := ds.1.id }
    .ok (ctx, { ds.2 with instBackground := some ctx })
  else
    .error "TypeError: dom is undefined"

/-- The `beforeParse` closure `buildPopup` passes to `buildDom`: attach
the fresh browser stub, apply the api-fake layer when the `apiFake`
option is truthy, install the sendMessage forwarding to the background
stub whenever `this.webExtension.background` exists, then run the user
hook when present. -/
def popupBeforeParse (browser : Nat) (options : BuildOpts) (bg : Option Context) :
    Window → Window × List PreEvent :=
  fun w =>
    let w := { w with browser := some browser }
    let evs := [PreEvent.setBrowser browser]
    let we :=
      if options.apiFake = some true then
        ({ w with fakeApplied := true }, evs ++ [PreEvent.applyFake browser])
      else (w, evs)
    let we2 :=
      match bg with
      | some bgCtx =>
        ({ we.1 with wiring := some bgCtx.browser }, we.2 ++ [PreEvent.installWiring bgCtx.browser])
      | none => we
    if options.hasBeforeParse then
      ({ we2.1 with userHookRan := true }, we2.2 ++ [PreEvent.userHook])
    else we2

/-- The `buildPopup` method: create a fresh browser stub, load the popup
file, and store the built context on `this.webExtension.popup`. -/
def buildPopup (env : Env) (st : SimState) (popupPath : FPath) (options : BuildOpts) :
    Context × SimState :=
  let browser := st.nextBrowserId
  let st1 := { st with nextBrowserId := st.nextBrowserId + 1 }
  let ds := buildDom env st1
    { path := some popupPath, beforeParse := popupBeforeParse browser options st1.instBackground }
    none []
  let ctx : Context := { browser := browser, dom := ds.1, document := ds.1.id }
  (ctx, { ds.2 with instPopup := some ctx })

/-- The background half of `fromManifest`: when the background option is
undefined or truthy and the manifest declares a background with a truthy
page or a scripts field, normalise `options.background` to an object,
copy a defined top-level `apiFake` into it, and build the background. -/
def bgStep (env : Env) (manifestPath : FPath) (manifest : Manifest) (options : Options)
    (st : SimState) : Except String (Option Context × Options × SimState) :=
  match manifest.background with
  | some background =>
    if (options.background.isUndef || options.background.truthy)
        && (strTruthy background.page || background.scripts.isSome) then
      let options1 :=
        if options.background.typeofObject then options
        else { options with background := OptVal.obj {} }
      let options2 :=
        match options1.apiFake with
        | some a => { options1 with background := options1.background.withApiFake a }
        | none => options1
      match buildBackground env st background manifestPath options2.background.asObj with
      | .ok cs => .ok (some cs.1, options2, cs.2)
      | .error e => .error e
    else .ok (none, options, st)
  | none => .ok (none, options, st)

/-- The popup half of `fromManifest`: when the popup option is undefined
or truthy and the manifest declares a browser action with a truthy
default popup, resolve the popup path against the manifest path,
normalise `options.popup` to an object, copy a defined top-level
`apiFake` into it, and build the popup. -/
def popupStep (env : Env) (manifestPath : FPath) (manifest : Manifest) (options : Options)
    (st : SimState) : Option Context × Options × SimState :=
  match manifest.browser_action with
  | some browserAction =>
    if (options.popup.isUndef || options.popup.truthy)
        && strTruthy browserAction.default_popup then
      let popupPath :=
        FPath.resolveIn env.cwd manifestPath (parsePath (browserAction.default_popup.getD ""))
      let options1 :=
        if options.popup.typeofObject then options
        else { options with popup := OptVal.obj {} }
      let options2 :=
        match options1.apiFake with
        | some a => { options1 with popup := options1.popup.withApiFake a }
        | none => options1
      let cs := buildPopup env st popupPath options2.popup.asObj
      (some cs.1, options2, cs.2)
    else (none, options, st)
  | none => (none, options, st)

/-- The object `fromManifest` resolves to.  The source never assigns a
`sidebar` property; the field is carried so that its absence is part of
the model. -/
structure WebExt where
  background : Option Context
  popup : Option Context
  sidebar : Option Context
  deriving DecidableEq, Repr

/-- The full outcome of a `fromManifest` call: the manifest file path it
read, the resolved object, the options object after the mutations
`fromManifest` performs on it, and the final instance state. -/
structure FMResult where
  manifestFilePath : FPath
  webExtension : WebExt
  finalOptions : Options
  finalState : SimState
  deriving DecidableEq, Repr

/-- The exported `fromManifest`: read and parse the manifest found at
`manifest.json` resolved against the given path, then run the
background step and the popup step on a fresh instance. -/
def fromManifest (env : Env) (manifestPath : FPath) (options : Options) :
    Except String FMResult :=
  let manifestFilePath := FPath.resolveIn env.cwd manifestPath (parsePath "manifest.json")
  let manifest := env.fsManifest manifestFilePath
  match bgStep env manifestPath manifest options initState with
  | .error e => .error e
  | .ok bg =>
    let pp := popupStep env manifestPath manifest bg.2.1 bg.2.2
    .ok { manifestFilePath := manifestFilePath
          webExtension := { background := bg.1, popup := pp.1, sidebar := none }
          finalOptions := pp.2.1
          finalState := pp.2.2 }

/-- Sinon's `stub.yield(...args)`: call every registered listener with
the given argument list, collecting the returned values in order. -/
def sinonYield {V : Type} (listeners : List (List V → V)) (args : List V) : List V :=
  listeners.map (fun l => l args)

/-- A `runtime.sendMessage` call in the popup window: when the wiring is
installed it forwards the full argument list to the `runtime.onMessage`
listener set of the wired background browser stub and returns the first
yielded result (`undefined`, i.e. `none`, when there is no listener);
without wiring the plain sinon stub returns `undefined`. -/
def sendMessageFromPopup {V : Type} (getListeners : Nat → List (List V → V))
    (popup : Context) (args : List V) : Option V :=
  match popup.dom.window.wiring with
  | some bgBrowser => (sinonYield (getListeners bgBrowser) args).head?
  | none => none

/-- Joining a cons: the first string is appended in front of the join of
the rest. -/
theorem join_cons (a : String) (l : List String) :
    String.join (a :: l) = a ++ String.join l := by
  apply String.ext
  show (String.join (a :: l)).data = (a ++ String.join l).data
  rw [String.data_join]
  show (a.data :: l.map String.data).flatten = a.data ++ (String.join l).data
  rw [String.data_join]
  simp

/-- The accumulator loop of `buildDom` equals, in one shot, the ordered
concatenation of every processed source followed by the separator. -/
theorem foldl_sep_eq_join (f : String → String) (sep : String) (l : List String) (acc : String) :
    l.foldl (fun a s => a ++ f s ++ sep) acc = acc ++ String.join (l.map fun s => f s ++ sep) := by
  induction l generalizing acc with
  | nil => simp [String.join]
  | cons x xs ih =>
    simp only [List.foldl_cons, ih, List.map_cons, join_cons]
    rw [String.append_assoc, String.append_assoc]
    rw [String.append_assoc]


/-- Whether `fromManifest` will build a background context: the guard of
its background branch. -/
def bgWill (manifest : Manifest) (options : Options) : Bool :=
  (options.background.isUndef || options.background.truthy) &&
    (match manifest.background with
     | some bg => strTruthy bg.page || bg.scripts.isSome
     | none => false)

/-- Whether `fromManifest` will build a popup context: the guard of its
popup branch. -/
def popupWill (manifest : Manifest) (options : Options) : Bool :=
  (options.popup.isUndef || options.popup.truthy) &&
    (match manifest.browser_action with
     | some ba => strTruthy ba.default_popup
     | none => false)

/-- One-shot description of what `fromManifest` does to the
`options.background` / `options.popup` field of a context it builds:
normalise to an object, then copy a defined top-level `apiFake` in. -/
def mutateVal (v : OptVal) (top : Option Bool) : OptVal :=
  let base := if v.typeofObject then v else OptVal.obj {}
  match top with
  | some a => base.withApiFake a
  | none => base

/-- The `apiFake` flag a built context effectively sees: the top-level
option when defined, otherwise the per-context one. -/
def effApiFake (v : OptVal) (top : Option Bool) : Option Bool :=
  match top with
  | some a => some a
  | none => v.asObj.apiFake

theorem mutateVal_asObj_apiFake (v : OptVal) (top : Option Bool)
    (h : (v.isUndef || v.truthy) = true) :
    (mutateVal v top).asObj.apiFake = effApiFake v top := by
  cases v with
  | undef => cases top <;> rfl
  | null => simp [OptVal.isUndef, OptVal.truthy] at h
  | bool b =>
    cases b
    · simp [OptVal.isUndef, OptVal.truthy] at h
    · cases top <;> rfl
  | obj o => cases top <;> rfl

theorem bgStep_build (env : Env) (mp : FPath) (m : Manifest) (o : Options) (st : SimState)
    (bg : BackgroundDecl) (hm : m.background = some bg)
    (hopt : (o.background.isUndef || o.background.truthy) = true)
    (hbg : (strTruthy bg.page || bg.scripts.isSome) = true) :
    bgStep env mp m o st =
      match buildBackground env st bg mp (mutateVal o.background o.apiFake).asObj with
      | .ok cs => .ok (some cs.1, { o with background := mutateVal o.background o.apiFake }, cs.2)
      | .error e => .error e := by
  have hcond : ((o.background.isUndef || o.background.truthy)
      && (strTruthy bg.page || bg.scripts.isSome)) = true := by
    rw [Bool.and_eq_true]; exact ⟨hopt, hbg⟩
  simp only [bgStep, hm, if_pos hcond]
  cases hv : o.background with
  | undef =>
    cases ha : o.apiFake <;>
      simp [hv, ha, mutateVal, OptVal.typeofObject, OptVal.withApiFake, OptVal.asObj]
  | null => rw [hv] at hopt; simp [OptVal.isUndef, OptVal.truthy] at hopt
  | bool b =>
    cases b
    · rw [hv] at hopt; simp [OptVal.isUndef, OptVal.truthy] at hopt
    · cases ha : o.apiFake <;>
        simp [hv, ha, mutateVal, OptVal.typeofObject, OptVal.withApiFake, OptVal.asObj]
  | obj oo =>
    cases ha : o.apiFake with
    | none =>
      simp [hv, ha, mutateVal, OptVal.typeofObject, OptVal.withApiFake, OptVal.asObj]
      rw [← ha, ← hv]
    | some a =>
      simp [hv, ha, mutateVal, OptVal.typeofObject, OptVal.withApiFake, OptVal.asObj]

theorem bgStep_skip (env : Env) (mp : FPath) (m : Manifest) (o : Options) (st : SimState)
    (h : bgWill m o = false) :
    bgStep env mp m o st = .ok (none, o, st) := by
  cases hm : m.background with
  | none => simp [bgStep, hm]
  | some bg =>
    simp only [bgWill, hm] at h
    simp [bgStep, hm, h]



theorem buildBackground_spec (env : Env) (st : SimState) (bg : BackgroundDecl)
    (mp : FPath) (bopts : BuildOpts)
    (hbg : (strTruthy bg.page || bg.scripts.isSome) = true) :
    ∃ ctx st1, buildBackground env st bg mp bopts = .ok (ctx, st1) ∧
      ctx.browser = st.nextBrowserId ∧
      ctx.dom.id = st.nextDomId ∧
      ctx.document = st.nextDomId ∧
      ctx.dom.window = (bgBeforeParse st.nextBrowserId bopts windowInit).1 ∧
      (∃ src, ctx.dom.events =
          ((bgBeforeParse st.nextBrowserId bopts windowInit).2).map DomEvent.pre ++
            [DomEvent.parse, DomEvent.eval src]) ∧
      st1.nextBrowserId = st.nextBrowserId + 1 ∧
      st1.nextDomId = st.nextDomId + 1 ∧
      st1.instBackground = some ctx ∧
      st1.instPopup = st.instPopup ∧
      (strTruthy bg.page = true →
          ctx.dom.loadedFile =
            some (FPath.resolveIn env.cwd mp (parsePath (bg.page.getD ""))) ∧
          ctx.dom.scriptSources =
            env.scriptTagsOf (FPath.resolveIn env.cwd mp (parsePath (bg.page.getD "")))) ∧
      (strTruthy bg.page = false →
          ctx.dom.loadedFile = none ∧
          ctx.dom.scriptSources = (bg.scripts.getD []).map
            (fun script => (FPath.resolveOne env.cwd (FPath.join mp (parsePath script))).render)) := by
  by_cases hpg : strTruthy bg.page = true
  · simp only [buildBackground, if_pos hpg]
    exact ⟨_, _, rfl, rfl, rfl, rfl, rfl, ⟨_, rfl⟩, rfl, rfl, rfl, rfl,
      fun _ => ⟨rfl, rfl⟩, fun hc => absurd hpg (by simp [hc])⟩
  · have hsc : bg.scripts.isSome = true := by
      rw [Bool.not_eq_true] at hpg
      rw [hpg] at hbg
      simpa using hbg
    simp only [buildBackground, if_neg hpg, if_pos hsc]
    refine ⟨_, _, rfl, rfl, rfl, rfl, rfl, ⟨_, rfl⟩, rfl, rfl, rfl, rfl,
      fun hc => absurd hc hpg, fun _ => ⟨rfl, rfl⟩⟩



theorem buildPopup_spec (env : Env) (st : SimState) (popupPath : FPath) (popts : BuildOpts) :
    ∃ ctx st1, buildPopup env st popupPath popts = (ctx, st1) ∧
      ctx.browser = st.nextBrowserId ∧
      ctx.dom.id = st.nextDomId ∧
      ctx.document = st.nextDomId ∧
      ctx.dom.window = (popupBeforeParse st.nextBrowserId popts st.instBackground windowInit).1 ∧
      (∃ src, ctx.dom.events =
          ((popupBeforeParse st.nextBrowserId popts st.instBackground windowInit).2).map
            DomEvent.pre ++ [DomEvent.parse, DomEvent.eval src]) ∧
      ctx.dom.loadedFile = some popupPath ∧
      ctx.dom.scriptSources = env.scriptTagsOf popupPath ∧
      st1 = { nextBrowserId := st.nextBrowserId + 1, nextDomId := st.nextDomId + 1,
              instBackground := st.instBackground, instPopup := some ctx } := by
  exact ⟨_, _, rfl, rfl, rfl, rfl, rfl, ⟨_, rfl⟩, rfl, rfl, rfl⟩

theorem popupStep_build (env : Env) (mp : FPath) (m : Manifest) (o : Options) (st : SimState)
    (ba : BrowserAction) (hm : m.browser_action = some ba)
    (hopt : (o.popup.isUndef || o.popup.truthy) = true)
    (hdp : strTruthy ba.default_popup = true) :
    popupStep env mp m o st =
      (let cs := buildPopup env st
          (FPath.resolveIn env.cwd mp (parsePath (ba.default_popup.getD "")))
          (mutateVal o.popup o.apiFake).asObj
       (some cs.1, { o with popup := mutateVal o.popup o.apiFake }, cs.2)) := by
  have hcond : ((o.popup.isUndef || o.popup.truthy) && strTruthy ba.default_popup) = true := by
    rw [Bool.and_eq_true]; exact ⟨hopt, hdp⟩
  simp only [popupStep, hm, if_pos hcond]
  cases hv : o.popup with
  | undef =>
    cases ha : o.apiFake <;>
      simp [hv, ha, mutateVal, OptVal.typeofObject, OptVal.withApiFake, OptVal.asObj]
  | null => rw [hv] at hopt; simp [OptVal.isUndef, OptVal.truthy] at hopt
  | bool b =>
    cases b
    · rw [hv] at hopt; simp [OptVal.isUndef, OptVal.truthy] at hopt
    · cases ha : o.apiFake <;>
        simp [hv, ha, mutateVal, OptVal.typeofObject, OptVal.withApiFake, OptVal.asObj]
  | obj oo =>
    cases ha : o.apiFake with
    | none =>
      simp [hv, ha, mutateVal, OptVal.typeofObject, OptVal.withApiFake, OptVal.asObj]
      rw [← ha, ← hv]
    | some a =>
      simp [hv, ha, mutateVal, OptVal.typeofObject, OptVal.withApiFake, OptVal.asObj]

theorem popupStep_skip (env : Env) (mp : FPath) (m : Manifest) (o : Options) (st : SimState)
    (h : popupWill m o = false) :
    popupStep env mp m o st = (none, o, st) := by
  cases hm : m.browser_action with
  | none => simp [popupStep, hm]
  | some ba =>
    simp only [popupWill, hm] at h
    simp [popupStep, hm, h]



/-- The parsed manifest `fromManifest` works on for a given path. -/
def manifestOf (env : Env) (mp : FPath) : Manifest :=
  env.fsManifest (FPath.resolveIn env.cwd mp (parsePath "manifest.json"))

theorem fromManifest_as_steps (env : Env) (mp : FPath) (o : Options) :
    fromManifest env mp o =
      match bgStep env mp (manifestOf env mp) o initState with
      | .error e => .error e
      | .ok bg =>
        let pp := popupStep env mp (manifestOf env mp) bg.2.1 bg.2.2
        .ok { manifestFilePath := FPath.resolveIn env.cwd mp (parsePath "manifest.json")
              webExtension := { background := bg.1, popup := pp.1, sidebar := none }
              finalOptions := pp.2.1
              finalState := pp.2.2 } := rfl

theorem fromManifest_spec (env : Env) (mp : FPath) (o : Options) :
    ∃ r, fromManifest env mp o = .ok r ∧
      r.manifestFilePath = FPath.resolveIn env.cwd mp (parsePath "manifest.json") ∧
      r.webExtension.sidebar = none ∧
      r.webExtension.background.isSome = bgWill (manifestOf env mp) o ∧
      r.webExtension.popup.isSome = popupWill (manifestOf env mp) o ∧
      r.finalState.instBackground = r.webExtension.background ∧
      r.finalState.instPopup = r.webExtension.popup ∧
      r.finalOptions = { o with
        background :=
          if bgWill (manifestOf env mp) o then mutateVal o.background o.apiFake
          else o.background
        popup :=
          if popupWill (manifestOf env mp) o then mutateVal o.popup o.apiFake
          else o.popup } ∧
      (∀ b, r.webExtension.background = some b →
        b.browser = 0 ∧ b.dom.id = 0 ∧ b.document = 0 ∧
        b.dom.window =
          (bgBeforeParse 0 (mutateVal o.background o.apiFake).asObj windowInit).1 ∧
        (∃ src, b.dom.events =
          ((bgBeforeParse 0 (mutateVal o.background o.apiFake).asObj windowInit).2).map
            DomEvent.pre ++ [DomEvent.parse, DomEvent.eval src]) ∧
        (∀ bgd, (manifestOf env mp).background = some bgd →
          (strTruthy bgd.page = true →
            b.dom.loadedFile =
              some (FPath.resolveIn env.cwd mp (parsePath (bgd.page.getD ""))) ∧
            b.dom.scriptSources =
              env.scriptTagsOf (FPath.resolveIn env.cwd mp (parsePath (bgd.page.getD "")))) ∧
          (strTruthy bgd.page = false →
            b.dom.loadedFile = none ∧
            b.dom.scriptSources = (bgd.scripts.getD []).map
              (fun script =>
                (FPath.resolveOne env.cwd (FPath.join mp (parsePath script))).render)))) ∧
      (∀ p, r.webExtension.popup = some p →
        p.browser = (if bgWill (manifestOf env mp) o then 1 else 0) ∧
        p.dom.id = (if bgWill (manifestOf env mp) o then 1 else 0) ∧
        p.document = (if bgWill (manifestOf env mp) o then 1 else 0) ∧
        p.dom.window =
          (popupBeforeParse p.browser (mutateVal o.popup o.apiFake).asObj
            r.webExtension.background windowInit).1 ∧
        (∃ src, p.dom.events =
          ((popupBeforeParse p.browser (mutateVal o.popup o.apiFake).asObj
            r.webExtension.background windowInit).2).map DomEvent.pre ++
            [DomEvent.parse, DomEvent.eval src]) ∧
        (∀ ba, (manifestOf env mp).browser_action = some ba →
          p.dom.loadedFile =
            some (FPath.resolveIn env.cwd mp (parsePath (ba.default_popup.getD ""))) ∧
          p.dom.scriptSources =
            env.scriptTagsOf
              (FPath.resolveIn env.cwd mp (parsePath (ba.default_popup.getD ""))))) := by
  cases hW : bgWill (manifestOf env mp) o with
  | false =>
    have h1 := bgStep_skip env mp (manifestOf env mp) o initState hW
    cases hP : popupWill (manifestOf env mp) o with
    | false =>
      have h2 := popupStep_skip env mp (manifestOf env mp) o initState hP
      refine ⟨{ manifestFilePath := FPath.resolveIn env.cwd mp (parsePath "manifest.json")
                webExtension := { background := none, popup := none, sidebar := none }
                finalOptions := o
                finalState := initState }, ?_, rfl, rfl, rfl, rfl, rfl, rfl, ?_, ?_, ?_⟩
      · rw [fromManifest_as_steps, h1]
        simp only [h2]
      · simp
      · intro b hb; cases hb
      · intro p hp; cases hp
    | true =>
      have hP' := hP
      rw [popupWill, Bool.and_eq_true] at hP'
      obtain ⟨hoptP, hbaP⟩ := hP'
      cases hba : (manifestOf env mp).browser_action with
      | none => simp [hba] at hbaP
      | some ba =>
      simp only [hba] at hbaP
      have h2 := popupStep_build env mp (manifestOf env mp) o initState ba hba hoptP hbaP
      obtain ⟨pctx, pst, hbp, hpbr, hpid, hpdoc, hpwin, hpev, hpfile, hpsrc, hpst⟩ :=
        buildPopup_spec env initState
          (FPath.resolveIn env.cwd mp (parsePath (ba.default_popup.getD "")))
          (mutateVal o.popup o.apiFake).asObj
      simp only [hbp] at h2
      refine ⟨{ manifestFilePath := FPath.resolveIn env.cwd mp (parsePath "manifest.json")
                webExtension := { background := none, popup := some pctx, sidebar := none }
                finalOptions := { o with popup := mutateVal o.popup o.apiFake }
                finalState := pst }, ?_, rfl, rfl, rfl, rfl, ?_, ?_, ?_, ?_, ?_⟩
      · rw [fromManifest_as_steps, h1]
        simp only [h2]
      · rw [hpst]; rfl
      · rw [hpst]
      · simp
      · intro b hb; cases hb
      · intro p hp
        injection hp with hp'
        subst hp'
        refine ⟨hpbr, hpid, hpdoc, ?_, ?_, ?_⟩
        · rw [hpbr]; exact hpwin
        · rw [hpbr]; exact hpev
        · intro ba2 hba2
          injection hba2 with hba2'
          subst hba2'
          exact ⟨hpfile, hpsrc⟩
  | true =>
    have hW' := hW
    rw [bgWill, Bool.and_eq_true] at hW'
    obtain ⟨hoptB, hbgB⟩ := hW'
    cases hbg : (manifestOf env mp).background with
    | none => simp [hbg] at hbgB
    | some bgd =>
    simp only [hbg] at hbgB
    have h1 := bgStep_build env mp (manifestOf env mp) o initState bgd hbg hoptB hbgB
    obtain ⟨ctx, st1, hbb, hbr, hid, hdoc, hwin, hev, hnb, hnd, hib, hip, hpage, hscr⟩ :=
      buildBackground_spec env initState bgd mp (mutateVal o.background o.apiFake).asObj hbgB
    simp only [hbb] at h1
    cases hP : popupWill (manifestOf env mp) o with
    | false =>
      have h2 := popupStep_skip env mp (manifestOf env mp)
        { o with background := mutateVal o.background o.apiFake } st1 hP
      refine ⟨{ manifestFilePath := FPath.resolveIn env.cwd mp (parsePath "manifest.json")
                webExtension := { background := some ctx, popup := none, sidebar := none }
                finalOptions := { o with background := mutateVal o.background o.apiFake }
                finalState := st1 }, ?_, rfl, rfl, rfl, rfl, ?_, ?_, ?_, ?_, ?_⟩
      · rw [fromManifest_as_steps, h1]
        simp only [h2]
      · exact hib
      · rw [hip]; rfl
      · simp
      · intro b hb
        injection hb with hb'
        subst hb'
        refine ⟨hbr, hid, hdoc, hwin, hev, ?_⟩
        intro bgd2 hbg2
        injection hbg2 with hbg2'
        subst hbg2'
        exact ⟨hpage, hscr⟩
      · intro p hp; cases hp
    | true =>
      have hP' := hP
      rw [popupWill, Bool.and_eq_true] at hP'
      obtain ⟨hoptP, hbaP⟩ := hP'
      cases hba : (manifestOf env mp).browser_action with
      | none => simp [hba] at hbaP
      | some ba =>
      simp only [hba] at hbaP
      have h2 : popupStep env mp (manifestOf env mp)
          { o with background := mutateVal o.background o.apiFake } st1 =
          (let cs := buildPopup env st1
              (FPath.resolveIn env.cwd mp (parsePath (ba.default_popup.getD "")))
              (mutateVal o.popup o.apiFake).asObj
           (some cs.1,
            { o with background := mutateVal o.background o.apiFake
                     popup := mutateVal o.popup o.apiFake }, cs.2)) :=
        popupStep_build env mp (manifestOf env mp) _ st1 ba hba hoptP hbaP
      obtain ⟨pctx, pst, hbp, hpbr, hpid, hpdoc, hpwin, hpev, hpfile, hpsrc, hpst⟩ :=
        buildPopup_spec env st1
          (FPath.resolveIn env.cwd mp (parsePath (ba.default_popup.getD "")))
          (mutateVal o.popup o.apiFake).asObj
      simp only [hbp] at h2
      refine ⟨{ manifestFilePath := FPath.resolveIn env.cwd mp (parsePath "manifest.json")
                webExtension := { background := some ctx, popup := some pctx, sidebar := none }
                finalOptions := { o with background := mutateVal o.background o.apiFake
                                         popup := mutateVal o.popup o.apiFake }
                finalState := pst }, ?_, rfl, rfl, rfl, rfl, ?_, ?_, ?_, ?_, ?_⟩
      · rw [fromManifest_as_steps, h1]
        simp only [h2]
      · rw [hpst]; exact hib
      · rw [hpst]
      · simp
      · intro b hb
        injection hb with hb'
        subst hb'
        refine ⟨hbr, hid, hdoc, hwin, hev, ?_⟩
        intro bgd2 hbg2
        injection hbg2 with hbg2'
        subst hbg2'
        exact ⟨hpage, hscr⟩
      · intro p hp
        injection hp with hp'
        subst hp'
        refine ⟨?_, ?_, ?_, ?_, ?_, ?_⟩
        · rw [hpbr, hnb]; rfl
        · rw [hpid, hnd]; rfl
        · rw [hpdoc, hnd]; rfl
        · rw [hpbr, ← hib]; exact hpwin
        · rw [hpbr, ← hib]; exact hpev
        · intro ba2 hba2
          injection hba2 with hba2'
          subst hba2'
          exact ⟨hpfile, hpsrc⟩



theorem bgBeforeParse_window (id : Nat) (bopts : BuildOpts) :
    (bgBeforeParse id bopts windowInit).1.browser = some id ∧
    ((bgBeforeParse id bopts windowInit).1.fakeApplied = true ↔ bopts.apiFake = some true) ∧
    (bgBeforeParse id bopts windowInit).1.wiring = none ∧
    (∃ tail, (bgBeforeParse id bopts windowInit).2 = PreEvent.setBrowser id :: tail) := by
  by_cases ha : bopts.apiFake = some true <;>
    by_cases hb : bopts.hasBeforeParse = true <;>
      simp [bgBeforeParse, windowInit, ha, hb]

theorem popupBeforeParse_window (id : Nat) (bopts : BuildOpts) (bg : Option Context) :
    (popupBeforeParse id bopts bg windowInit).1.browser = some id ∧
    ((popupBeforeParse id bopts bg windowInit).1.fakeApplied = true ↔ bopts.apiFake = some true) ∧
    (popupBeforeParse id bopts bg windowInit).1.wiring = bg.map Context.browser ∧
    (∃ tail, (popupBeforeParse id bopts bg windowInit).2 = PreEvent.setBrowser id :: tail) := by
  cases bg <;>
    by_cases ha : bopts.apiFake = some true <;>
      by_cases hb : bopts.hasBeforeParse = true <;>
        simp [popupBeforeParse, windowInit, ha, hb]

theorem buildDom_events (env : Env) (st : SimState) (opts : BuildDomOptions)
    (html : Option String) (scripts : List String) :
    ((buildDom env st opts html scripts).1).events =
      (opts.beforeParse windowInit).2.map DomEvent.pre ++
        [DomEvent.parse,
         DomEvent.eval (String.join ((gatherScripts env opts html scripts).map
           (fun s => env.instrument (stripFileScheme s) ++ ";\n;")))] := by
  show (opts.beforeParse windowInit).2.map DomEvent.pre ++
      [DomEvent.parse,
       DomEvent.eval ((gatherScripts env opts html scripts).foldl
         (fun acc s => acc ++ env.instrument (stripFileScheme s) ++ ";\n;") "")] = _
  rw [foldl_sep_eq_join, String.empty_append]

theorem mutateVal_some_obj (v : OptVal) (a : Bool)
    (h : (v.isUndef || v.truthy) = true) :
    ∃ oo, mutateVal v (some a) = OptVal.obj oo ∧ oo.apiFake = some a := by
  cases v with
  | undef => exact ⟨_, rfl, rfl⟩
  | null => simp [OptVal.isUndef, OptVal.truthy] at h
  | bool b =>
    cases b
    · simp [OptVal.isUndef, OptVal.truthy] at h
    · exact ⟨_, rfl, rfl⟩
  | obj o => exact ⟨_, rfl, rfl⟩

theorem bgWill_eq_true_iff (m : Manifest) (o : Options) :
    bgWill m o = true ↔
      ((o.background.isUndef || o.background.truthy) = true ∧
       ∃ bg, m.background = some bg ∧ (strTruthy bg.page || bg.scripts.isSome) = true) := by
  rw [bgWill, Bool.and_eq_true]
  constructor
  · rintro ⟨h1, h2⟩
    refine ⟨h1, ?_⟩
    cases hm : m.background with
    | none => simp [hm] at h2
    | some bg => simp only [hm] at h2; exact ⟨bg, rfl, h2⟩
  · rintro ⟨h1, bg, hm, h2⟩
    exact ⟨h1, by simp only [hm]; exact h2⟩

theorem popupWill_eq_true_iff (m : Manifest) (o : Options) :
    popupWill m o = true ↔
      ((o.popup.isUndef || o.popup.truthy) = true ∧
       ∃ ba, m.browser_action = some ba ∧ strTruthy ba.default_popup = true) := by
  rw [popupWill, Bool.and_eq_true]
  constructor
  · rintro ⟨h1, h2⟩
    refine ⟨h1, ?_⟩
    cases hm : m.browser_action with
    | none => simp [hm] at h2
    | some ba => simp only [hm] at h2; exact ⟨ba, rfl, h2⟩
  · rintro ⟨h1, ba, hm, h2⟩
    exact ⟨h1, by simp only [hm]; exact h2⟩



/-- A concrete current directory for example runs. -/
def exCwd : FPath := { abs := true, segs := [] }

/-- A concrete extension directory for example runs. -/
def exManifestPath : FPath := { abs := true, segs := ["ext"] }

/-- A manifest declaring all three entry points: a background page, a
browser-action default popup, and a sidebar-action default panel. -/
def exManifestFull : Manifest :=
  { background := some { page := some "background.html", scripts := none }
    browser_action := some { default_popup := some "popup.html" }
    sidebar_action := some { default_panel := some "sidebar.html" } }

/-- An environment whose manifest file parses to `exManifestFull`, with
no script tags in any html file and identity-free instrumentation. -/
def exEnv : Env :=
  { cwd := exCwd, fsManifest := fun _ => exManifestFull
    scriptTagsOf := fun _ => [], instrument := fun _ => "" }

/-- The empty options object: no field set. -/
def exOptions : Options := {}

/-- Options with `background: null` (a JS value that is falsy but not
`false`). -/
def exOptionsNull : Options := { background := OptVal.null }

/-- The background context built by the example run. -/
def exBgCtx : Context :=
  { browser := 0
    dom := { id := 0
             window := { browser := some 0, fakeApplied := false, wiring := none,
                         userHookRan := false }
             loadedFile := some { abs := true, segs := ["ext", "background.html"] }
             scriptSources := []
             events := [DomEvent.pre (PreEvent.setBrowser 0), DomEvent.parse,
                        DomEvent.eval ""] }
    document := 0 }

/-- The popup context built by the example run: note the wiring to the
background browser stub `0`. -/
def exPopupCtx : Context :=
  { browser := 1
    dom := { id := 1
             window := { browser := some 1, fakeApplied := false, wiring := some 0,
                         userHookRan := false }
             loadedFile := some { abs := true, segs := ["ext", "popup.html"] }
             scriptSources := []
             events := [DomEvent.pre (PreEvent.setBrowser 1),
                        DomEvent.pre (PreEvent.installWiring 0), DomEvent.parse,
                        DomEvent.eval ""] }
    document := 1 }

/-- The full outcome of running `fromManifest` on `exManifestFull` with
empty options. -/
def exResultFull : FMResult :=
  { manifestFilePath := { abs := true, segs := ["ext", "manifest.json"] }
    webExtension := { background := some exBgCtx, popup := some exPopupCtx, sidebar := none }
    finalOptions := { background := OptVal.obj {}, popup := OptVal.obj {}, apiFake := none,
                      extra := [] }
    finalState := { nextBrowserId := 2, nextDomId := 2, instBackground := some exBgCtx,
                    instPopup := some exPopupCtx } }

/-- The example run evaluates to `exResultFull`. -/
theorem exRun_eq : fromManifest exEnv exManifestPath exOptions = .ok exResultFull := rfl



/-- Claim C1: the source of `fromManifest` never builds a sidebar
context.  On a manifest declaring background, popup and sidebar entry
points, the resolved object has background and popup contexts but its
sidebar is absent, although `sidebar_action.default_panel` is declared. -/
theorem C1_sidebar_never_loaded :
    exManifestFull.sidebar_action = some { default_panel := some "sidebar.html" } ∧
    (fromManifest exEnv exManifestPath exOptions).toOption.map
        (fun r2 => (r2.webExtension.background.isSome, r2.webExtension.popup.isSome,
                    r2.webExtension.sidebar)) = some (true, true, none) :=
  ⟨rfl, rfl⟩

/-- Claim C2: the popup-to-background forwarding is installed with no
wiring option consulted: on a run whose options object is empty (so no
wiring feature was enabled), the built popup window still carries the
forwarding to the background browser stub. -/
theorem C2_wiring_installed_without_option :
    exOptions = { background := OptVal.undef, popup := OptVal.undef, apiFake := none,
                  extra := [] } ∧
    (fromManifest exEnv exManifestPath exOptions).toOption.map
        (fun r2 => (r2.webExtension.popup.map (fun p => p.dom.window.wiring),
                    r2.webExtension.background.map Context.browser)) =
      some (some (some 0), some 0) :=
  ⟨rfl, rfl⟩

/-- Claim C3: when the wiring is installed (a background existed when the
popup was built), a popup `runtime.sendMessage` call hands its whole
argument list to every listener of the background stub's
`runtime.onMessage` set and returns the first yielded result. -/
theorem C3_wiring_forwards_to_background_listeners (env : Env) (mp : FPath) (o : Options)
    (r : FMResult) (b p : Context) (h : fromManifest env mp o = .ok r)
    (hb : r.webExtension.background = some b)
    (hp : r.webExtension.popup = some p) :
    p.dom.window.wiring = some b.browser ∧
    ∀ (V : Type) (getListeners : Nat → List (List V → V)) (args : List V),
      sendMessageFromPopup getListeners p args =
        ((getListeners b.browser).map (fun l => l args)).head? := by
  obtain ⟨r', hfm, hmfp, hsb, hbgs, hps, hibg, hipg, hopts, hbgf, hpf⟩ :=
    fromManifest_spec env mp o
  rw [h] at hfm
  injection hfm with hre
  subst hre
  obtain ⟨hpbr, hpid, hpdoc, hpwin, _⟩ := hpf p hp
  have hw : p.dom.window.wiring = some b.browser := by
    rw [hpwin]
    rw [(popupBeforeParse_window p.browser (mutateVal o.popup o.apiFake).asObj
      r.webExtension.background).2.2.1]
    rw [hb]
    rfl
  refine ⟨hw, ?_⟩
  intro V getL args
  simp only [sendMessageFromPopup, hw, sinonYield]

theorem C3_witness :
    sendMessageFromPopup (fun _ => [fun l : List Nat => l.length]) exPopupCtx [5, 7] =
      some 2 := by
  have hfwd := (C3_wiring_forwards_to_background_listeners exEnv exManifestPath exOptions
    exResultFull exBgCtx exPopupCtx exRun_eq rfl rfl).2 Nat
    (fun _ => [fun l => l.length]) [5, 7]
  rw [hfwd]
  rfl

/-- Claim C4: `buildDom` instruments every gathered script source in list
order (script tags of the loaded file, or the passed script list),
appends the separator after each, and the event log shows exactly one
evaluation, of exactly that concatenation, after parsing. -/
theorem C4_instrument_all_then_eval_once (env : Env) (st : SimState)
    (opts : BuildDomOptions) (html : Option String) (scripts : List String) :
    ((buildDom env st opts html scripts).1).events =
      (opts.beforeParse windowInit).2.map DomEvent.pre ++
        [DomEvent.parse,
         DomEvent.eval (String.join ((gatherScripts env opts html scripts).map
           (fun s => env.instrument (stripFileScheme s) ++ ";\n;")))] ∧
    (((buildDom env st opts html scripts).1).events.filter DomEvent.isEval).length = 1 ∧
    gatherScripts env opts none scripts =
      (match opts.path with | some pth => env.scriptTagsOf pth | none => []) ∧
    (∀ htmlText, gatherScripts env opts (some htmlText) scripts = scripts) := by
  refine ⟨buildDom_events env st opts html scripts, ?_, rfl, fun _ => rfl⟩
  rw [buildDom_events env st opts html scripts]
  rw [List.filter_append]
  have hpre : ((opts.beforeParse windowInit).2.map DomEvent.pre).filter DomEvent.isEval = [] := by
    induction (opts.beforeParse windowInit).2 with
    | nil => rfl
    | cons x xs ih => simp [DomEvent.isEval, ih]
  rw [hpre]
  rfl

/-- Claim C5 counterexample: with `options.background = null` (which is
not `false`) and a manifest declaring a background page, `fromManifest`
builds no background context, refuting the "not false" reading of the
guard. -/
theorem C5_counterexample_null_background_option :
    exOptionsNull.background = OptVal.null ∧
    OptVal.null ≠ OptVal.bool false ∧
    exManifestFull.background = some { page := some "background.html", scripts := none } ∧
    (fromManifest exEnv exManifestPath exOptionsNull).toOption.map
        (fun r2 => r2.webExtension.background.isSome) = some false :=
  ⟨rfl, by decide, rfl, rfl⟩

/-- Claim C5 amended: the result has a background context iff the
background option is undefined or truthy and the manifest has a
background entry with a truthy page (a non-empty string) or a scripts
field; likewise the popup context requires the popup option undefined or
truthy and a browser action with a truthy default popup. -/
theorem C5_amended_contexts_iff (env : Env) (mp : FPath) (o : Options) (r : FMResult)
    (h : fromManifest env mp o = .ok r) :
    (r.webExtension.background.isSome = true ↔
      ((o.background.isUndef || o.background.truthy) = true ∧
       ∃ bg, (manifestOf env mp).background = some bg ∧
         (strTruthy bg.page || bg.scripts.isSome) = true)) ∧
    (r.webExtension.popup.isSome = true ↔
      ((o.popup.isUndef || o.popup.truthy) = true ∧
       ∃ ba, (manifestOf env mp).browser_action = some ba ∧
         strTruthy ba.default_popup = true)) := by
  obtain ⟨r', hfm, hmfp, hsb, hbgs, hps, hibg, hipg, hopts, hbgf, hpf⟩ :=
    fromManifest_spec env mp o
  rw [h] at hfm
  injection hfm with hre
  subst hre
  rw [hbgs, hps, bgWill_eq_true_iff, popupWill_eq_true_iff]
  exact ⟨Iff.rfl, Iff.rfl⟩

theorem C5_witness :
    exResultFull.webExtension.background.isSome = true ↔
      ((exOptions.background.isUndef || exOptions.background.truthy) = true ∧
       ∃ bg, (manifestOf exEnv exManifestPath).background = some bg ∧
         (strTruthy bg.page || bg.scripts.isSome) = true) :=
  (C5_amended_contexts_iff exEnv exManifestPath exOptions exResultFull exRun_eq).1



/-- A manifest whose background is declared through a script list holding
an absolute path. -/
def exManifestScripts : Manifest :=
  { background := some { page := none, scripts := some ["/s.js"] }
    browser_action := none
    sidebar_action := none }

/-- An environment whose manifest file parses to `exManifestScripts`. -/
def exEnvScripts : Env :=
  { cwd := exCwd, fsManifest := fun _ => exManifestScripts
    scriptTagsOf := fun _ => [], instrument := fun _ => "" }

/-- Claim C6 counterexample: an absolute background script path is not
resolved against the manifest path.  `path.resolve(manifestPath, s)`
would give `/s.js`, but the code joins first and loads `/ext/s.js`. -/
theorem C6_counterexample_absolute_script :
    exManifestScripts.background = some { page := none, scripts := some ["/s.js"] } ∧
    (fromManifest exEnvScripts exManifestPath exOptions).toOption.map
        (fun r2 => r2.webExtension.background.map (fun b => b.dom.scriptSources)) =
      some (some ["/ext/s.js"]) ∧
    (FPath.resolveIn exCwd exManifestPath (parsePath "/s.js")).render = "/s.js" ∧
    ("/ext/s.js" : String) ≠ "/s.js" :=
  ⟨rfl, rfl, rfl, by decide⟩

/-- Claim C6 amended: the manifest is read from `manifest.json` resolved
against the given path; the background page and the popup page are
loaded from their declared paths resolved against the manifest path; a
background script path is joined to the manifest path and then
normalised, which coincides with resolving against the manifest path
exactly when the script path is relative. -/
theorem C6_amended_path_resolution (env : Env) (mp : FPath) (o : Options) (r : FMResult)
    (h : fromManifest env mp o = .ok r) :
    r.manifestFilePath = FPath.resolveIn env.cwd mp (parsePath "manifest.json") ∧
    (∀ b bgd, r.webExtension.background = some b →
        (manifestOf env mp).background = some bgd →
        (strTruthy bgd.page = true →
          b.dom.loadedFile =
            some (FPath.resolveIn env.cwd mp (parsePath (bgd.page.getD "")))) ∧
        (strTruthy bgd.page = false →
          b.dom.scriptSources = (bgd.scripts.getD []).map
            (fun script =>
              (FPath.resolveOne env.cwd (FPath.join mp (parsePath script))).render))) ∧
    (∀ p ba, r.webExtension.popup = some p →
        (manifestOf env mp).browser_action = some ba →
        p.dom.loadedFile =
          some (FPath.resolveIn env.cwd mp (parsePath (ba.default_popup.getD "")))) ∧
    (∀ cwd base q, q.abs = false →
        FPath.resolveOne cwd (FPath.join base q) = FPath.resolveIn cwd base q) := by
  obtain ⟨r', hfm, hmfp, hsb, hbgs, hps, hibg, hipg, hopts, hbgf, hpf⟩ :=
    fromManifest_spec env mp o
  rw [h] at hfm
  injection hfm with hre
  subst hre
  refine ⟨hmfp, ?_, ?_, ?_⟩
  · intro b bgd hb hbgd
    obtain ⟨_, _, _, _, _, hfiles⟩ := hbgf b hb
    obtain ⟨hpg, hsc⟩ := hfiles bgd hbgd
    exact ⟨fun hh => (hpg hh).1, fun hh => (hsc hh).2⟩
  · intro p ba hp hba
    obtain ⟨_, _, _, _, _, hfiles⟩ := hpf p hp
    exact (hfiles ba hba).1
  · intro cwd base q hq
    cases hb : base.abs <;>
      simp [FPath.resolveOne, FPath.resolveIn, FPath.join, hq, hb, List.append_assoc]

theorem C6_witness :
    exResultFull.manifestFilePath =
      FPath.resolveIn exEnv.cwd exManifestPath (parsePath "manifest.json") :=
  (C6_amended_path_resolution exEnv exManifestPath exOptions exResultFull exRun_eq).1

/-- Claim C7: the two contexts a run builds never share a browser stub, a
DOM, or a document, and after the popup is built the stored background
context is still exactly the one built first. -/
theorem C7_contexts_isolated (env : Env) (mp : FPath) (o : Options) (r : FMResult)
    (b p : Context) (h : fromManifest env mp o = .ok r)
    (hb : r.webExtension.background = some b)
    (hp : r.webExtension.popup = some p) :
    b.browser ≠ p.browser ∧ b.dom ≠ p.dom ∧ b.dom.id ≠ p.dom.id ∧
    b.document ≠ p.document ∧
    r.finalState.instBackground = some b ∧ r.finalState.instPopup = some p := by
  obtain ⟨r', hfm, hmfp, hsb, hbgs, hps, hibg, hipg, hopts, hbgf, hpf⟩ :=
    fromManifest_spec env mp o
  rw [h] at hfm
  injection hfm with hre
  subst hre
  obtain ⟨hbbr, hbid, hbdoc, _⟩ := hbgf b hb
  have hWtrue : bgWill (manifestOf env mp) o = true := by rw [← hbgs, hb]; rfl
  obtain ⟨hpbr, hpid, hpdoc, _⟩ := hpf p hp
  rw [hWtrue] at hpbr hpid hpdoc
  refine ⟨?_, ?_, ?_, ?_, ?_, ?_⟩
  · rw [hbbr, hpbr]; decide
  · intro heq
    have h2 : b.dom.id = p.dom.id := by rw [heq]
    rw [hbid, hpid] at h2
    simp at h2
  · rw [hbid, hpid]; decide
  · rw [hbdoc, hpdoc]; decide
  · rw [hibg, hb]
  · rw [hipg, hp]

theorem C7_witness :
    exBgCtx.browser ≠ exPopupCtx.browser ∧ exBgCtx.dom ≠ exPopupCtx.dom ∧
    exBgCtx.dom.id ≠ exPopupCtx.dom.id ∧ exBgCtx.document ≠ exPopupCtx.document ∧
    exResultFull.finalState.instBackground = some exBgCtx ∧
    exResultFull.finalState.instPopup = some exPopupCtx :=
  C7_contexts_isolated exEnv exManifestPath exOptions exResultFull exBgCtx exPopupCtx
    exRun_eq rfl rfl

/-- Claim C8: in every built context the window's browser is the fresh
stub and was attached before parsing; the fake-behaviour layer is applied
exactly when the effective apiFake option is truthy; and a defined
top-level apiFake is copied into the build options of every context that
is built. -/
theorem C8_api_stubbing_delegated (env : Env) (mp : FPath) (o : Options) (r : FMResult)
    (h : fromManifest env mp o = .ok r) :
    (∀ b, r.webExtension.background = some b →
        b.dom.window.browser = some b.browser ∧
        (∃ pre rest, b.dom.events = pre ++ DomEvent.parse :: rest ∧
            DomEvent.pre (PreEvent.setBrowser b.browser) ∈ pre) ∧
        (b.dom.window.fakeApplied = true ↔
          effApiFake o.background o.apiFake = some true)) ∧
    (∀ p, r.webExtension.popup = some p →
        p.dom.window.browser = some p.browser ∧
        (∃ pre rest, p.dom.events = pre ++ DomEvent.parse :: rest ∧
            DomEvent.pre (PreEvent.setBrowser p.browser) ∈ pre) ∧
        (p.dom.window.fakeApplied = true ↔
          effApiFake o.popup o.apiFake = some true)) ∧
    (∀ a, o.apiFake = some a →
        (r.webExtension.background.isSome = true →
          ∃ oo, r.finalOptions.background = OptVal.obj oo ∧ oo.apiFake = some a) ∧
        (r.webExtension.popup.isSome = true →
          ∃ oo, r.finalOptions.popup = OptVal.obj oo ∧ oo.apiFake = some a)) := by
  obtain ⟨r', hfm, hmfp, hsb, hbgs, hps, hibg, hipg, hopts, hbgf, hpf⟩ :=
    fromManifest_spec env mp o
  rw [h] at hfm
  injection hfm with hre
  subst hre
  refine ⟨?_, ?_, ?_⟩
  · intro b hb
    obtain ⟨hbbr, hbid, hbdoc, hbwin, hbev, _⟩ := hbgf b hb
    have hWtrue : bgWill (manifestOf env mp) o = true := by rw [← hbgs, hb]; rfl
    have hoptB : (o.background.isUndef || o.background.truthy) = true :=
      ((bgWill_eq_true_iff _ _).1 hWtrue).1
    obtain ⟨hw1, hw2, hw3, tail, hw4⟩ :=
      bgBeforeParse_window 0 (mutateVal o.background o.apiFake).asObj
    refine ⟨?_, ?_, ?_⟩
    · rw [hbwin, hbbr]
      exact hw1
    · obtain ⟨src, hev⟩ := hbev
      refine ⟨((bgBeforeParse 0 (mutateVal o.background o.apiFake).asObj
          windowInit).2).map DomEvent.pre, [DomEvent.eval src], hev, ?_⟩
      rw [hbbr, hw4, List.map_cons]
      exact List.mem_cons_self _ _
    · rw [hbwin, hw2, mutateVal_asObj_apiFake o.background o.apiFake hoptB]
  · intro p hp
    obtain ⟨hpbr, hpid, hpdoc, hpwin, hpev, _⟩ := hpf p hp
    have hPtrue : popupWill (manifestOf env mp) o = true := by rw [← hps, hp]; rfl
    have hoptP : (o.popup.isUndef || o.popup.truthy) = true :=
      ((popupWill_eq_true_iff _ _).1 hPtrue).1
    obtain ⟨hw1, hw2, hw3, tail, hw4⟩ :=
      popupBeforeParse_window p.browser (mutateVal o.popup o.apiFake).asObj
        r.webExtension.background
    refine ⟨?_, ?_, ?_⟩
    · rw [hpwin]
      exact hw1
    · obtain ⟨src, hev⟩ := hpev
      refine ⟨((popupBeforeParse p.browser (mutateVal o.popup o.apiFake).asObj
          r.webExtension.background windowInit).2).map DomEvent.pre,
          [DomEvent.eval src], hev, ?_⟩
      rw [hw4, List.map_cons]
      exact List.mem_cons_self _ _
    · rw [hpwin, hw2, mutateVal_asObj_apiFake o.popup o.apiFake hoptP]
  · intro a ha
    constructor
    · intro hbs
      have hWtrue : bgWill (manifestOf env mp) o = true := by rw [← hbgs]; exact hbs
      have hoptB : (o.background.isUndef || o.background.truthy) = true :=
        ((bgWill_eq_true_iff _ _).1 hWtrue).1
      obtain ⟨oo, hmo, hoa⟩ := mutateVal_some_obj o.background a hoptB
      refine ⟨oo, ?_, hoa⟩
      rw [hopts]
      show (if bgWill (manifestOf env mp) o then mutateVal o.background o.apiFake
            else o.background) = OptVal.obj oo
      rw [hWtrue]
      show mutateVal o.background o.apiFake = OptVal.obj oo
      rw [ha]
      exact hmo
    · intro hps2
      have hPtrue : popupWill (manifestOf env mp) o = true := by rw [← hps]; exact hps2
      have hoptP : (o.popup.isUndef || o.popup.truthy) = true :=
        ((popupWill_eq_true_iff _ _).1 hPtrue).1
      obtain ⟨oo, hmo, hoa⟩ := mutateVal_some_obj o.popup a hoptP
      refine ⟨oo, ?_, hoa⟩
      rw [hopts]
      show (if popupWill (manifestOf env mp) o then mutateVal o.popup o.apiFake
            else o.popup) = OptVal.obj oo
      rw [hPtrue]
      show mutateVal o.popup o.apiFake = OptVal.obj oo
      rw [ha]
      exact hmo

theorem C8_witness :
    exBgCtx.dom.window.browser = some exBgCtx.browser :=
  ((C8_api_stubbing_delegated exEnv exManifestPath exOptions exResultFull exRun_eq).1
    exBgCtx rfl).1

/-- Claim C9: `buildBackground` succeeds exactly under the precondition
that the background declares a truthy page or a scripts field; without
it, the undefined `dom` makes the `dom.window` access a type error; and
the guard in `fromManifest` establishes the precondition for every call,
so `fromManifest` never fails. -/
theorem C9_background_requires_page_or_scripts :
    (∀ env st bg mp bopts, (strTruthy bg.page || bg.scripts.isSome) = true →
        ∃ ctx st1, buildBackground env st bg mp bopts = .ok (ctx, st1)) ∧
    (∀ env st bg mp bopts, (strTruthy bg.page || bg.scripts.isSome) = false →
        buildBackground env st bg mp bopts = .error "TypeError: dom is undefined") ∧
    (∀ env mp o, ∃ r, fromManifest env mp o = .ok r) := by
  refine ⟨?_, ?_, ?_⟩
  · intro env st bg mp bopts hbg
    obtain ⟨ctx, st1, heq, _⟩ := buildBackground_spec env st bg mp bopts hbg
    exact ⟨ctx, st1, heq⟩
  · intro env st bg mp bopts hbg
    rw [Bool.or_eq_false_iff] at hbg
    obtain ⟨h1, h2⟩ := hbg
    simp [buildBackground, h1, h2]
  · intro env mp o
    obtain ⟨r, hr, _⟩ := fromManifest_spec env mp o
    exact ⟨r, hr⟩

theorem C9_witness :
    ∃ ctx st1, buildBackground exEnv initState
        { page := some "background.html", scripts := none } exManifestPath {} =
      .ok (ctx, st1) :=
  C9_background_requires_page_or_scripts.1 exEnv initState
    { page := some "background.html", scripts := none } exManifestPath {} (by decide)

/-- Claim C10: `fromManifest` mutates only the `background` and `popup`
fields of its options argument, and only for a context it builds: the
field is normalised to an object and receives a defined top-level
apiFake; the top-level apiFake field and every other field are returned
unchanged. -/
theorem C10_options_mutation (env : Env) (mp : FPath) (o : Options) (r : FMResult)
    (h : fromManifest env mp o = .ok r) :
    r.finalOptions.apiFake = o.apiFake ∧
    r.finalOptions.extra = o.extra ∧
    r.finalOptions.background =
      (if bgWill (manifestOf env mp) o then mutateVal o.background o.apiFake
       else o.background) ∧
    r.finalOptions.popup =
      (if popupWill (manifestOf env mp) o then mutateVal o.popup o.apiFake
       else o.popup) := by
  obtain ⟨r', hfm, hmfp, hsb, hbgs, hps, hibg, hipg, hopts, hbgf, hpf⟩ :=
    fromManifest_spec env mp o
  rw [h] at hfm
  injection hfm with hre
  subst hre
  rw [hopts]
  exact ⟨rfl, rfl, rfl, rfl⟩

theorem C10_witness :
    exResultFull.finalOptions.apiFake = exOptions.apiFake :=
  (C10_options_mutation exEnv exManifestPath exOptions exResultFull exRun_eq).1


end WebextJsdom
